import Mathlib

/-!
Shallow embedding of the audio capture/edit/transcribe session of
`src/speech/stt_demo.py`.

Modelling conventions:
* `numpy.float32` sample values and segment times (Python `float`) are
  modelled as `ℚ`; sample counts and sample indices (Python `int`, always
  nonnegative here) as `ℕ`.
* Python slicing `xs[a:b]` is `(xs.drop a).take (b - a)` (with truncated
  `ℕ` subtraction, which matches Python's clamping for `a ≤ b` and its
  empty result for `a > b` on nonnegative indices).
* The external STT engine (faster-whisper) is opaque: transcription
  functions take the engine's raw result list as an explicit argument.
* The terminal UI, the sound device and temp-file plumbing are outside of
  the model; the user-visible status line is kept as a `String` field
  (`float` formatting such as Python's `:.1f` is rendered via `toString`
  of the exact rational, which the claims never inspect).
-/

namespace STTDemo

/-- `SAMPLE_RATE = 16000` from stt_demo.py. -/
def SAMPLE_RATE : ℕ := 16000

/-- `WAVEFORM_CHARS = " ▁▂▃▄▅▆▇█"` (9 intensity glyphs, lowest = blank). -/
def WAVEFORM_CHARS : String := " ▁▂▃▄▅▆▇█"

/-- `TranscriptSegment` dataclass: a span of transcribed text with timing. -/
structure TranscriptSegment where
  text : String
  start_time : ℚ
  end_time : ℚ
deriving DecidableEq

/-- `AudioBuffer` dataclass: recorded audio plus editing state.
`select_end = 0` is the sentinel for "end of buffer". -/
structure AudioBuffer where
  samples : List ℚ
  sample_rate : ℕ
  select_start : ℕ
  select_end : ℕ
  segments : List TranscriptSegment
  selected_segment : ℤ
deriving DecidableEq

/-- `AudioBuffer.duration`: `len(samples) / sample_rate if len > 0 else 0.0`. -/
def duration (b : AudioBuffer) : ℚ :=
  if 0 < b.samples.length then (b.samples.length : ℚ) / (b.sample_rate : ℚ) else 0

/-- `AudioBuffer.select_end_actual`: `select_end if select_end > 0 else len(samples)`. -/
def select_end_actual (b : AudioBuffer) : ℕ :=
  if 0 < b.select_end then b.select_end else b.samples.length

/-- `AudioBuffer.selected_samples`: `samples[select_start:select_end_actual]`. -/
def selected_samples (b : AudioBuffer) : List ℚ :=
  (b.samples.drop b.select_start).take (select_end_actual b - b.select_start)

/-- `AudioBuffer.full_transcript`: `" ".join(s.text for s in segments)`. -/
def full_transcript (b : AudioBuffer) : String :=
  String.intercalate " " (b.segments.map (fun s => s.text))

/-- `AudioBuffer.append`: `samples = concatenate([samples, data.flatten()])`
(blocks are mono, so `flatten` is the identity on the modelled list). -/
def append (b : AudioBuffer) (data : List ℚ) : AudioBuffer :=
  { b with samples := b.samples ++ data }

/-- `AudioBuffer.clear`. -/
def clear (b : AudioBuffer) : AudioBuffer :=
  { b with samples := [], select_start := 0, select_end := 0,
           segments := [], selected_segment := -1 }

/-- `AudioBuffer.reset_selection`. -/
def reset_selection (b : AudioBuffer) : AudioBuffer :=
  { b with select_start := 0, select_end := 0, selected_segment := -1 }

/-- `AudioBuffer.time_to_samples`: `int(seconds * sample_rate)`.
(`int()` truncates; all times fed to it by the program are nonnegative, on
which truncation is `floor`, and the result is a nonnegative index.) -/
def time_to_samples (b : AudioBuffer) (seconds : ℚ) : ℕ :=
  (⌊seconds * (b.sample_rate : ℚ)⌋).toNat

/-- `AudioBuffer.samples_to_time`: `samples / sample_rate`. -/
def samples_to_time (b : AudioBuffer) (n : ℕ) : ℚ :=
  (n : ℚ) / (b.sample_rate : ℚ)

/-- The segment built by the shift branch of `delete_selection`
(`TranscriptSegment(text=seg.text, start_time=seg.start_time - d, end_time=seg.end_time - d)`). -/
def shiftSeg (d : ℚ) (seg : TranscriptSegment) : TranscriptSegment :=
  { text := seg.text, start_time := seg.start_time - d, end_time := seg.end_time - d }

/-- The per-segment rule of the `for seg in self.segments` loop in
`delete_selection`: keep a segment entirely before the deletion, shift one
entirely after it, drop any overlapping one. -/
def segment_delete_rule (dStart dEnd dDur : ℚ) (seg : TranscriptSegment) :
    Option TranscriptSegment :=
  if seg.end_time ≤ dStart then some seg
  else if dEnd ≤ seg.start_time then some (shiftSeg dDur seg)
  else none

/-- `AudioBuffer.delete_selection`: remove `samples[select_start:select_end_actual]`,
renumber/drop segments, reset the markers.  Returns the buffer unchanged when
`len(samples) == 0`. -/
def delete_selection (b : AudioBuffer) : AudioBuffer :=
  if b.samples.length = 0 then b
  else
    let e := select_end_actual b
    let before := b.samples.take b.select_start
    let after := b.samples.drop e
    let deleted_start_sec : ℚ := (b.select_start : ℚ) / (b.sample_rate : ℚ)
    let deleted_end_sec : ℚ := (e : ℚ) / (b.sample_rate : ℚ)
    let deleted_duration := deleted_end_sec - deleted_start_sec
    { b with
      samples := before ++ after,
      segments := b.segments.filterMap
        (segment_delete_rule deleted_start_sec deleted_end_sec deleted_duration),
      select_start := 0,
      select_end := 0 }

/-- Time (seconds) of the start of the deleted range of `delete_selection`. -/
def deletedStart (b : AudioBuffer) : ℚ :=
  (b.select_start : ℚ) / (b.sample_rate : ℚ)

/-- Time (seconds) of the end of the deleted range of `delete_selection`. -/
def deletedEnd (b : AudioBuffer) : ℚ :=
  (select_end_actual b : ℚ) / (b.sample_rate : ℚ)

/-- Duration (seconds) of the range removed by `delete_selection`. -/
def deletedDur (b : AudioBuffer) : ℚ :=
  deletedEnd b - deletedStart b

/-- The selection invariant stated by the spec:
`0 <= selectionStart <= effectiveEnd <= len(samples)` (the lower bound is
implicit in `ℕ`). -/
def selectionInvariant (b : AudioBuffer) : Prop :=
  b.select_start ≤ select_end_actual b ∧ select_end_actual b ≤ b.samples.length

instance (b : AudioBuffer) : Decidable (selectionInvariant b) := by
  unfold selectionInvariant; infer_instance

/-! ## Waveform renderer -/

/-- One character cell of the rendered waveform row.  `dash` is the
placeholder row `"─" * width` for an empty buffer; the other constructors
carry the index into `WAVEFORM_CHARS` and the highlight state the source
encodes with ANSI colours (cursor `▼`, bright-cyan selected, dim, green
normal). -/
inductive Cell where
  | dash
  | cursor
  | selectedCell (level : ℕ)
  | dimmed (level : ℕ)
  | normal (level : ℕ)
deriving DecidableEq

/-- The per-chunk RMS amplitude of `render_waveform`
(`rms = sqrt(mean(chunk ** 2)) if len(chunk) > 0 else 0`, and `0` for the
`start >= len(samples)` padding branch).  The square root on the chunk's
mean square is the one non-rational operation of the program, so it is a
parameter `sq`; every property proved below assumes only `sq 0 = 0`. -/
def chunk_rms (sq : ℚ → ℚ) (samples : List ℚ) (chunk_size i : ℕ) : ℚ :=
  let start := i * chunk_size
  let stop := min (start + chunk_size) samples.length
  if start < samples.length then
    let chunk := (samples.drop start).take (stop - start)
    if 0 < chunk.length then
      sq ((chunk.map (fun x => x * x)).sum / (chunk.length : ℚ))
    else 0
  else 0

/-- `max(chunks) if chunks else 1` from `render_waveform`. -/
def list_max (l : List ℚ) : ℚ :=
  match l with
  | [] => 1
  | c :: cs => cs.foldl max c

/-- The body of the `for i, amp in enumerate(chunks)` loop of
`render_waveform`: map the normalized amplitude to a `WAVEFORM_CHARS` index
and pick the highlight state (cursor, selected, dimmed, normal). -/
def render_cell (chunk_size sea select_start select_end play_pos i : ℕ)
    (amp : ℚ) : Cell :=
  let char_idx := (⌊amp * ((WAVEFORM_CHARS.length : ℚ) - 1)⌋).toNat
  let sample_pos := i * chunk_size
  if 0 < play_pos ∧ ((sample_pos : ℤ) - (play_pos : ℤ)).natAbs < chunk_size then
    Cell.cursor
  else if 0 < select_start ∨ 0 < select_end then
    if select_start ≤ sample_pos ∧ sample_pos < sea then Cell.selectedCell char_idx
    else Cell.dimmed char_idx
  else Cell.normal char_idx

/-- `render_waveform(samples, width, select_start, select_end, play_pos)`:
downsample into `width` chunks, compute RMS per chunk, normalize by the
maximum RMS (skipped when the maximum is 0), and emit one highlighted cell
per chunk.  An empty sample array renders the placeholder `"─" * width`. -/
def render_waveform (sq : ℚ → ℚ) (samples : List ℚ)
    (width select_start select_end play_pos : ℕ) : List Cell :=
  if samples.length = 0 then List.replicate width Cell.dash
  else
    let chunk_size := max 1 (samples.length / width)
    let chunks := (List.range width).map (chunk_rms sq samples chunk_size)
    let max_amp := list_max chunks
    let normed := if 0 < max_amp then chunks.map (fun c => c / max_amp) else chunks
    let sea := if 0 < select_end then select_end else samples.length
    (List.range width).map (fun i =>
      render_cell chunk_size sea select_start select_end play_pos i
        (normed.getD i 0))

/-! ## Transcription -/

/-- Python `str.strip()` as used on engine segment texts: drop leading and
trailing whitespace (spelled out over the character list so that it is
kernel-reducible). -/
def strip (s : String) : String :=
  ⟨((s.data.dropWhile Char.isWhitespace).reverse.dropWhile Char.isWhitespace).reverse⟩

/-- A raw segment returned by the opaque STT engine
(`{text, start, end}` in seconds relative to the submitted clip). -/
structure RawSegment where
  text : String
  start : ℚ
  end_ : ℚ
deriving DecidableEq

/-- The sample slice transcribed by `_transcribe_audio`
(`end_sample = len(samples) if end_sample == 0`; `samples[start:end]`). -/
def transcribe_slice (b : AudioBuffer) (start_sample end_sample : ℕ) : List ℚ :=
  let e := if end_sample = 0 then b.samples.length else end_sample
  (b.samples.drop start_sample).take (e - start_sample)

/-- The body of the `for seg in raw_segments` loop of `_transcribe_audio`:
keep a segment whose stripped text is nonempty, with both times offset by
the range's start. -/
def raw_to_segment (start_offset : ℚ) (seg : RawSegment) :
    Option TranscriptSegment :=
  let text := strip seg.text
  if text = "" then none
  else some { text := text,
              start_time := seg.start + start_offset,
              end_time := seg.end_ + start_offset }

/-- `STTDemoApp._transcribe_audio(start_sample, end_sample)` with the engine
result as an explicit argument: ranges shorter than 0.5 s
(`len(samples) < SAMPLE_RATE * 0.5`) return `[]` without consulting the
engine; otherwise each nonempty stripped segment text is kept with its
times offset by `start_sample / SAMPLE_RATE`. -/
def transcribe_audio (b : AudioBuffer) (start_sample end_sample : ℕ)
    (engine : List RawSegment) : List TranscriptSegment :=
  let samples := transcribe_slice b start_sample end_sample
  if samples.length < SAMPLE_RATE / 2 then []
  else
    let start_offset : ℚ := (start_sample : ℚ) / (SAMPLE_RATE : ℚ)
    engine.filterMap (raw_to_segment start_offset)

/-! ## App-level session state -/

/-- The `STTDemoApp` state needed by the claims: the audio buffer, the
recording/playing flags, the playback cursor (`play_position`), the table
cursor row, the status line, and a log of the sample ranges submitted to
the full/selection transcription worker. -/
structure AppState where
  audio : AudioBuffer
  is_recording : Bool
  is_playing : Bool
  play_position : ℕ
  cursor_row : ℕ
  status : String
  transcribe_requests : List (ℕ × ℕ)
deriving DecidableEq

/-- `STTDemoApp._update_status(text, style)`. -/
def update_status (s : AppState) (text style : String) : AppState :=
  { s with status :=
      if style = "" then text
      else "[" ++ style ++ "]" ++ text ++ "[/" ++ style ++ "]" }

/-- `STTDemoApp._stop_recording` (the audio-device stream handling is out of
scope; the Python `:.1f` duration formatting is rendered via `toString`). -/
def stop_recording (s : AppState) : AppState :=
  let s1 := { s with is_recording := false }
  update_status s1
    ("Recorded " ++ toString (duration s1.audio)
      ++ "s. Press Enter to transcribe, or p to play.") ""

/-- `STTDemoApp._stop_playback`. -/
def stop_playback (s : AppState) : AppState :=
  let s1 := { s with is_playing := false, play_position := 0 }
  update_status s1
    ("Playback stopped. " ++ toString (duration s1.audio) ++ "s recorded.") ""

/-- The nested `playback_finished` callback of `_start_playback`. -/
def playback_finished (s : AppState) : AppState :=
  let s1 := { s with is_playing := false, play_position := 0 }
  update_status s1
    ("Playback finished. " ++ toString (duration s1.audio) ++ "s recorded.") ""

/-- `STTDemoApp._start_playback`: a no-op status message on an empty buffer;
otherwise start playing the selection (cursor at `select_start`) or the full
buffer (cursor at 0).  The playback thread itself is out of scope. -/
def start_playback (s : AppState) : AppState :=
  if s.audio.samples.length = 0 then
    update_status s ("Nothing to play. Record something first.") ""
  else
    let pp := if 0 < s.audio.select_start ∨ 0 < s.audio.select_end then
        s.audio.select_start
      else 0
    update_status { s with is_playing := true, play_position := pp }
      ("▶ Playing...") ("bold green")

/-- One tick of `_start_playback_timer`: advance the cursor by
`int(SAMPLE_RATE * 0.1) = 1600` samples and clamp it to the selection end
(or the buffer end). -/
def playback_tick (s : AppState) : AppState :=
  if s.is_playing then
    let pp := s.play_position + SAMPLE_RATE / 10
    let e := if 0 < s.audio.select_end then select_end_actual s.audio
      else s.audio.samples.length
    { s with play_position := if e < pp then e else pp }
  else s

/-- `STTDemoApp.action_set_select_start`: place the selection start at the
playback cursor if one is active, else at 10% of the buffer
(`int(len(samples) * 0.1)`, modelled as the exact rational floor). -/
def action_set_select_start (s : AppState) : AppState :=
  if s.audio.samples.length = 0 then s
  else
    let v := if 0 < s.play_position then s.play_position
      else (⌊(s.audio.samples.length : ℚ) * (1 / 10 : ℚ)⌋).toNat
    let s1 := { s with audio := { s.audio with select_start := v } }
    update_status s1
      ("Selection start: " ++ toString (samples_to_time s1.audio s1.audio.select_start)) ""

/-- `STTDemoApp.action_set_select_end`: place the selection end at the
playback cursor if one is active, else at 90% of the buffer
(`int(len(samples) * 0.9)`). -/
def action_set_select_end (s : AppState) : AppState :=
  if s.audio.samples.length = 0 then s
  else
    let v := if 0 < s.play_position then s.play_position
      else (⌊(s.audio.samples.length : ℚ) * (9 / 10 : ℚ)⌋).toNat
    let s1 := { s with audio := { s.audio with select_end := v } }
    update_status s1
      ("Selection end: " ++ toString (samples_to_time s1.audio s1.audio.select_end)) ""

/-- `STTDemoApp.action_transcribe_all`: silent-buffer guard with a status
message, stop recording/playback, then submit the full range `(0, 0)` to
the transcription worker (modelled by appending to `transcribe_requests`). -/
def action_transcribe_all (s : AppState) : AppState :=
  if s.audio.samples.length = 0 then
    update_status s ("Nothing to transcribe. Record something first.") ""
  else
    let s1 := if s.is_recording then stop_recording s else s
    let s2 := if s1.is_playing then stop_playback s1 else s1
    let s3 := update_status s2 ("Transcribing full audio...") ("bold yellow")
    { s3 with transcribe_requests := s3.transcribe_requests ++ [(0, 0)] }

/-- `STTDemoApp.action_delete_selection`: return silently on an empty
buffer; with no marker selection fall back to the segment under the table
cursor; with still no selection report a no-op; otherwise delete and report
the removed duration. -/
def action_delete_selection (s : AppState) : AppState :=
  if s.audio.samples.length = 0 then s
  else
    let s1 :=
      if s.audio.select_start = 0 ∧ s.audio.select_end = 0 then
        if s.cursor_row < s.audio.segments.length then
          let seg := s.audio.segments.getD s.cursor_row
            { text := "", start_time := 0, end_time := 0 }
          { s with audio := { s.audio with
              select_start := time_to_samples s.audio seg.start_time,
              select_end := time_to_samples s.audio seg.end_time } }
        else s
      else s
    if s1.audio.select_start = 0 ∧ s1.audio.select_end = 0 then
      update_status s1 ("No selection. Use [ and ] or select a segment.") ""
    else
      let old_d := duration s1.audio
      let s2 := { s1 with audio := delete_selection s1.audio }
      update_status s2
        ("Deleted " ++ toString (old_d - duration s2.audio) ++ "s of audio") ""

/-- The `group == "transcribe"`, `state == SUCCESS` branch of
`on_worker_state_changed`: a non-empty result replaces the segments; an
empty result only reports "No speech detected." and leaves the buffer
alone. -/
def on_transcribe_success (s : AppState) (result : List TranscriptSegment) :
    AppState :=
  if result.isEmpty then update_status s ("No speech detected.") ""
  else
    let s1 := { s with audio := { s.audio with segments := result } }
    update_status s1
      ("Transcribed: " ++ toString result.length ++ " segments, "
        ++ toString (full_transcript s1.audio).length ++ " chars") ""

/-- `STTDemoApp._transcribe_live` with the engine result explicit: below one
second of audio return `[]`; otherwise the nonempty trimmed texts of the
engine result on the trailing window (the window slicing only affects what
the opaque engine sees). -/
def transcribe_live (s : AppState) (engine : List RawSegment) : List String :=
  if s.audio.samples.length < SAMPLE_RATE then []
  else engine.filterMap (fun seg =>
    let t := strip seg.text
    if t = "" then none else some t)

/-- The `group == "transcribe_live"`, `state == SUCCESS` branch of
`on_worker_state_changed`: only when still recording and with nonempty
texts, show a (truncated) preview in the status line; in every case the
audio buffer is untouched.  `elapsedStr` stands for the wall-clock
`format_time(elapsed)` string. -/
def on_live_success (s : AppState) (texts : List String) (elapsedStr : String) :
    AppState :=
  if s.is_recording then
    if texts.isEmpty then s
    else
      let joined := String.intercalate " " texts
      let preview := joined.take 50
      let preview2 := if preview.length < joined.length then preview ++ "..." else preview
      update_status s ("● [" ++ elapsedStr ++ "] " ++ preview2) ("bold red")
  else s

/-! ## Concrete states used by witnesses and counterexamples -/

/-- A freshly started app with 10 recorded samples (any nonzero amount
suffices; sample values are irrelevant to the selection logic). -/
def demoState : AppState :=
  { audio := { samples := List.replicate 10 0, sample_rate := SAMPLE_RATE,
               select_start := 0, select_end := 0, segments := [],
               selected_segment := -1 },
    is_recording := false, is_playing := false, play_position := 0,
    cursor_row := 0, status := "Ready. Press Space to start recording.",
    transcribe_requests := [] }

/-- A freshly started app with an empty buffer. -/
def emptyState : AppState :=
  { audio := { samples := [], sample_rate := SAMPLE_RATE,
               select_start := 0, select_end := 0, segments := [],
               selected_segment := -1 },
    is_recording := false, is_playing := false, play_position := 0,
    cursor_row := 0, status := "Ready. Press Space to start recording.",
    transcribe_requests := [] }

/-- An empty buffer that still carries selection markers and a segment
(only the markers/segments matter to `delete_selection`'s empty guard). -/
def bEmptySel : AudioBuffer :=
  { samples := [], sample_rate := SAMPLE_RATE, select_start := 3,
    select_end := 5, segments := [{ text := "x", start_time := 0, end_time := 1 }],
    selected_segment := -1 }

/-- Segment kept by `delete_selection` on `bW` (ends at the deletion start). -/
def segA : TranscriptSegment := { text := "a", start_time := 0, end_time := 1 / 2 }

/-- Segment shifted by `delete_selection` on `bW` (starts at the deletion end). -/
def segB : TranscriptSegment := { text := "b", start_time := 3 / 2, end_time := 2 }

/-- Segment dropped by `delete_selection` on `bW` (overlaps the deletion). -/
def segC : TranscriptSegment := { text := "c", start_time := 3 / 5, end_time := 7 / 5 }

/-- A 2-second buffer at a 4 Hz sample rate with the selection covering
samples `[2, 6)` = seconds `(0.5, 1.5)`. -/
def bW : AudioBuffer :=
  { samples := [1, 2, 3, 4, 5, 6, 7, 8], sample_rate := 4, select_start := 2,
    select_end := 6, segments := [segA, segB, segC], selected_segment := -1 }

/-! ## Theorems -/

/-- On an all-silent buffer every chunk RMS is zero (the mean square of a
zero chunk is zero, and `sq 0 = 0`). -/
theorem chunk_rms_silent (sq : ℚ → ℚ) (hsq : sq 0 = 0) (n cs i : ℕ) :
    chunk_rms sq (List.replicate n (0 : ℚ)) cs i = 0 := by
  simp only [chunk_rms]
  split_ifs with h1 h2
  · rw [List.drop_replicate, List.take_replicate, List.map_replicate]
    simp [hsq]
  · rfl
  · rfl

/-- Folding `max` from 0 over zeros stays 0. -/
theorem foldl_max_replicate_zero (m : ℕ) :
    List.foldl max (0 : ℚ) (List.replicate m 0) = 0 := by
  induction m with
  | zero => rfl
  | succ k ih => simpa [List.replicate_succ, max_self] using ih

/-- `max(chunks)` of a nonempty all-zero chunk list is 0. -/
theorem list_max_silent (w : ℕ) (hw : 0 < w) :
    list_max (List.replicate w (0 : ℚ)) = 0 := by
  cases w with
  | zero => omega
  | succ m =>
      simp only [List.replicate_succ, list_max]
      exact foldl_max_replicate_zero m

/-- `getD` on an all-zero list with default 0 is always 0. -/
theorem getD_replicate_zero (w i : ℕ) :
    (List.replicate w (0 : ℚ)).getD i 0 = 0 := by
  induction w generalizing i with
  | zero => simp
  | succ k ih => cases i <;> simp [List.replicate_succ, ih]

/-- With no playback cursor, no selection, and zero amplitude, a cell
renders at the minimum intensity with the "normal" highlight. -/
theorem render_cell_silent (cs sea i : ℕ) :
    render_cell cs sea 0 0 0 i 0 = Cell.normal 0 := by
  simp [render_cell]

/-- Counterexample to C8: an EMPTY all-silent sample array does not render
minimum-intensity "normal" cells — the source short-circuits to the
placeholder row `"─" * width`, whose dash glyph is not `WAVEFORM_CHARS[0]`
and carries no highlight at all. -/
theorem render_empty_cex :
    render_waveform id [] 10 0 0 0 = List.replicate 10 Cell.dash ∧
    render_waveform id [] 10 0 0 0 ≠ List.replicate 10 (Cell.normal 0) := by
  have h : render_waveform id [] 10 0 0 0 = List.replicate 10 Cell.dash := rfl
  refine ⟨h, ?_⟩
  rw [h]
  decide

/-- C8 amended: for every all-silent sample array of NONZERO length and any
width, `render(samples, width, 0, 0, 0)` produces exactly `width` cells,
all at the minimum intensity level 0 and all with the "normal" highlight
(the divide-by-zero guard applies since the maximum chunk RMS is 0, and no
selection or cursor is active); the empty array instead renders the
`width`-dash placeholder row. -/
theorem render_all_silent (sq : ℚ → ℚ) (hsq : sq 0 = 0) (n w : ℕ)
    (hn : 0 < n) :
    render_waveform sq (List.replicate n (0 : ℚ)) w 0 0 0
      = List.replicate w (Cell.normal 0) := by
  simp only [render_waveform, List.length_replicate]
  rw [if_neg (by omega)]
  have hchunks : (List.range w).map
      (chunk_rms sq (List.replicate n (0 : ℚ)) (max 1 (n / w)))
      = List.replicate w (0 : ℚ) := by
    refine List.eq_replicate_iff.mpr ⟨by simp, ?_⟩
    intro x hx
    obtain ⟨i, hi, rfl⟩ := List.mem_map.mp hx
    exact chunk_rms_silent sq hsq n _ i
  rcases Nat.eq_zero_or_pos w with rfl | hw
  · simp
  · rw [hchunks, list_max_silent w hw]
    rw [if_neg (by norm_num)]
    refine List.eq_replicate_iff.mpr ⟨by simp, ?_⟩
    intro c hc
    obtain ⟨i, hi, rfl⟩ := List.mem_map.mp hc
    rw [if_neg (lt_irrefl (0 : ℚ)), getD_replicate_zero]
    exact render_cell_silent _ _ i

/-- Witness for the amended C8: three silent samples rendered at width 5
give five minimum-level normal cells (with the identity standing in for the
square root, which fixes 0 as required). -/
theorem render_all_silent_witness :
    id (0 : ℚ) = 0 ∧ 0 < 3 ∧
    render_waveform id (List.replicate 3 (0 : ℚ)) 5 0 0 0
      = List.replicate 5 (Cell.normal 0) :=
  ⟨rfl, by decide, render_all_silent id rfl 3 5 (by decide)⟩

/-- C6: for every `AudioBuffer` — including one with zero samples —
`select_end_actual` returns `select_end` when it is nonzero and
`len(samples)` when `select_end = 0` (the "to end of buffer" sentinel).
It is a pure function of the buffer, so it has no side effect. -/
theorem select_end_actual_spec (b : AudioBuffer) :
    (b.select_end ≠ 0 → select_end_actual b = b.select_end) ∧
    (b.select_end = 0 → select_end_actual b = b.samples.length) := by
  constructor
  · intro h; simp [select_end_actual, Nat.pos_of_ne_zero h]
  · intro h; simp [select_end_actual, h]

/-- Witness for C6: the sentinel on a zero-sample buffer resolves to length
0, and a nonzero `select_end` is returned as is. -/
theorem select_end_actual_spec_witness :
    select_end_actual emptyState.audio = 0 ∧ select_end_actual bW = 6 :=
  ⟨(select_end_actual_spec emptyState.audio).2 rfl,
   (select_end_actual_spec bW).1 (by decide)⟩

/-- C7: `append(a); append(b)` concatenates in order, duration is
`len(samples) / sample_rate`, and segments and both selection markers are
untouched. -/
theorem append_append_spec (b : AudioBuffer) (a c : List ℚ)
    (_hrate : 0 < b.sample_rate) :
    (append (append b a) c).samples = b.samples ++ (a ++ c) ∧
    duration (append (append b a) c)
      = ((append (append b a) c).samples.length : ℚ) / (b.sample_rate : ℚ) ∧
    (append (append b a) c).segments = b.segments ∧
    (append (append b a) c).select_start = b.select_start ∧
    (append (append b a) c).select_end = b.select_end := by
  refine ⟨by simp [append], ?_, rfl, rfl, rfl⟩
  by_cases h : 0 < (append (append b a) c).samples.length
  · simp only [duration, if_pos h]; rfl
  · have h0 : (append (append b a) c).samples.length = 0 := by omega
    simp [duration, h0]

/-- Witness for C7 at a concrete buffer and two concrete blocks. -/
theorem append_append_spec_witness :
    0 < bW.sample_rate ∧
    ((append (append bW [9]) [10, 11]).samples = bW.samples ++ ([9] ++ [10, 11]) ∧
     duration (append (append bW [9]) [10, 11])
       = (((append (append bW [9]) [10, 11]).samples.length : ℚ) / (bW.sample_rate : ℚ)) ∧
     (append (append bW [9]) [10, 11]).segments = bW.segments ∧
     (append (append bW [9]) [10, 11]).select_start = bW.select_start ∧
     (append (append bW [9]) [10, 11]).select_end = bW.select_end) :=
  ⟨by decide, append_append_spec bW [9] [10, 11] (by decide)⟩

/-- C10: `delete_selection` on a zero-sample buffer returns immediately and
leaves the whole buffer state unchanged — in particular the selection
markers keep their prior values rather than being reset to `(0, 0)`. -/
theorem delete_selection_empty_noop (b : AudioBuffer) (h : b.samples = []) :
    delete_selection b = b := by
  simp [delete_selection, h]

/-- Witness for C10: an empty buffer with markers `(3, 5)` and a segment is
returned unchanged (markers not reset). -/
theorem delete_selection_empty_noop_witness :
    bEmptySel.samples = [] ∧ delete_selection bEmptySel = bEmptySel ∧
    (delete_selection bEmptySel).select_start = 3 ∧
    (delete_selection bEmptySel).select_end = 5 :=
  ⟨rfl, delete_selection_empty_noop bEmptySel rfl,
   by rw [delete_selection_empty_noop bEmptySel rfl]; rfl,
   by rw [delete_selection_empty_noop bEmptySel rfl]; rfl⟩

/-- The buffer of the spec's §8 "segment shift correctness" example: 6 s of
audio at 16 kHz, segments `[(0,1),(2,3),(5,6)]` seconds, and the selection
covering the sample range of the time range `(1.5, 4)`,
i.e. `[24000, 64000)`. -/
def bC2 : AudioBuffer :=
  { samples := List.replicate 96000 0, sample_rate := SAMPLE_RATE,
    select_start := 24000, select_end := 64000,
    segments := [{ text := "a", start_time := 0, end_time := 1 },
                 { text := "b", start_time := 2, end_time := 3 },
                 { text := "c", start_time := 5, end_time := 6 }],
    selected_segment := -1 }

/-- Counterexample to C2: deleting seconds `(1.5, 4)` from segments
`[(0,1),(2,3),(5,6)]` does NOT produce the claimed `[(0,1),(3.5,4.5)]` —
the code shifts the last segment by the full deleted duration of 2.5 s,
giving `(2.5, 3.5)`, not `(3.5, 4.5)`. -/
theorem delete_selection_example_cex :
    ((delete_selection bC2).segments.map (fun s => (s.start_time, s.end_time)))
      ≠ [((0 : ℚ), (1 : ℚ)), ((7 / 2 : ℚ), (9 / 2 : ℚ))] := by
  have h : ((delete_selection bC2).segments.map (fun s => (s.start_time, s.end_time)))
      = [((0 : ℚ), (1 : ℚ)), ((5 / 2 : ℚ), (7 / 2 : ℚ))] := by
    norm_num [delete_selection, bC2, select_end_actual, segment_delete_rule,
      shiftSeg, SAMPLE_RATE, List.filterMap_cons]
  rw [h]
  norm_num

/-- C2 amended: with segments `[(0,1),(2,3),(5,6)]` and a deletion of the
samples of the time range `(1.5, 4)`, `delete_selection` produces exactly
`[(0,1),(2.5,3.5)]`: the middle segment is dropped as overlapping and the
last segment is shifted left by the deleted duration of 2.5 s. -/
theorem delete_selection_example :
    (delete_selection bC2).segments
      = [{ text := "a", start_time := 0, end_time := 1 },
         { text := "c", start_time := 5 / 2, end_time := 7 / 2 }] := by
  norm_num [delete_selection, bC2, select_end_actual, segment_delete_rule,
    shiftSeg, SAMPLE_RATE, List.filterMap_cons]

/-- C1: for a buffer with a valid selection
(`selectionStart ≤ effectiveEnd ≤ len(samples)`) whose segments satisfy the
documented segment invariant (nonnegative, ordered times) and with a
positive sample rate, `delete_selection` removes exactly the selected
samples (the new length is `len(before) - (effectiveEnd - selectionStart)`);
every segment ending at or before the deleted range survives unchanged,
every segment starting at or after it survives with both times shifted back
by the deleted duration, every surviving segment arises in one of those two
ways (so overlapping segments are dropped and no survivor overlaps the
deleted time range), and both selection markers end up at the `(0, 0)`
sentinel. -/
theorem delete_selection_spec (b : AudioBuffer)
    (hrate : 0 < b.sample_rate)
    (hsel : b.select_start ≤ select_end_actual b)
    (hlen : select_end_actual b ≤ b.samples.length)
    (hseg0 : ∀ seg ∈ b.segments, 0 ≤ seg.start_time)
    (hseg1 : ∀ seg ∈ b.segments, seg.start_time ≤ seg.end_time) :
    (delete_selection b).samples.length
        = b.samples.length - (select_end_actual b - b.select_start) ∧
    (∀ seg ∈ b.segments, seg.end_time ≤ deletedStart b →
        seg ∈ (delete_selection b).segments) ∧
    (∀ seg ∈ b.segments, deletedEnd b ≤ seg.start_time →
        shiftSeg (deletedDur b) seg ∈ (delete_selection b).segments) ∧
    (∀ seg ∈ (delete_selection b).segments, ∃ s0 ∈ b.segments,
        (s0.end_time ≤ deletedStart b ∧ seg = s0) ∨
        (deletedEnd b ≤ s0.start_time ∧ seg = shiftSeg (deletedDur b) s0)) ∧
    (∀ seg ∈ (delete_selection b).segments,
        seg.end_time ≤ deletedStart b ∨ deletedStart b ≤ seg.start_time) ∧
    (delete_selection b).select_start = 0 ∧
    (delete_selection b).select_end = 0 := by
  have hrq : (0 : ℚ) < (b.sample_rate : ℚ) := by exact_mod_cast hrate
  have hds_le : deletedStart b ≤ deletedEnd b := by
    unfold deletedStart deletedEnd
    have hcast : (b.select_start : ℚ) ≤ (select_end_actual b : ℚ) := by
      exact_mod_cast hsel
    gcongr
  by_cases hE : b.samples.length = 0
  · -- empty buffer: the method returns early, but a valid selection on an
    -- empty buffer forces both markers to 0 and a degenerate deleted range.
    have hbeq : delete_selection b = b := by simp [delete_selection, hE]
    have heff0 : select_end_actual b = 0 := Nat.le_zero.mp (hE ▸ hlen)
    have hss0 : b.select_start = 0 := Nat.le_zero.mp (heff0 ▸ hsel)
    have hse0 : b.select_end = 0 := by
      by_contra hne
      have h1 : select_end_actual b = b.select_end := by
        simp [select_end_actual, Nat.pos_of_ne_zero hne]
      omega
    have hdS : deletedStart b = 0 := by simp [deletedStart, hss0]
    have hdE : deletedEnd b = 0 := by simp [deletedEnd, heff0]
    have hdD : deletedDur b = 0 := by simp [deletedDur, hdS, hdE]
    have hshift : ∀ seg : TranscriptSegment, shiftSeg (0 : ℚ) seg = seg := by
      intro seg; cases seg; simp [shiftSeg]
    refine ⟨?_, ?_, ?_, ?_, ?_, ?_, ?_⟩
    · rw [hbeq, heff0, hss0]; omega
    · intro seg hm _; rw [hbeq]; exact hm
    · intro seg hm _; rw [hbeq, hdD, hshift]; exact hm
    · intro seg hm; rw [hbeq] at hm
      exact ⟨seg, hm, Or.inr ⟨by rw [hdE]; exact hseg0 seg hm,
        by rw [hdD, hshift]⟩⟩
    · intro seg hm; rw [hbeq] at hm; right; rw [hdS]; exact hseg0 seg hm
    · rw [hbeq]; exact hss0
    · rw [hbeq]; exact hse0
  · have hbeq : delete_selection b = { b with
        samples := b.samples.take b.select_start
          ++ b.samples.drop (select_end_actual b),
        segments := b.segments.filterMap
          (segment_delete_rule (deletedStart b) (deletedEnd b) (deletedDur b)),
        select_start := 0, select_end := 0 } := by
      unfold delete_selection
      rw [if_neg hE]
      rfl
    refine ⟨?_, ?_, ?_, ?_, ?_, ?_, ?_⟩
    · rw [hbeq]
      simp only [List.length_append, List.length_take, List.length_drop]
      have h1 : b.select_start ≤ b.samples.length := le_trans hsel hlen
      omega
    · intro seg hm hle
      rw [hbeq]
      exact List.mem_filterMap.mpr ⟨seg, hm, by simp [segment_delete_rule, hle]⟩
    · intro seg hm hge
      rw [hbeq]
      by_cases hend : seg.end_time ≤ deletedStart b
      · -- only possible for a degenerate (empty) deleted range
        have h1 : seg.start_time ≤ seg.end_time := hseg1 seg hm
        have h2 : deletedStart b = deletedEnd b :=
          le_antisymm hds_le (by linarith)
        have hdD0 : deletedDur b = 0 := by unfold deletedDur; linarith
        have hid : shiftSeg (deletedDur b) seg = seg := by
          rw [hdD0]; cases seg; simp [shiftSeg]
        rw [hid]
        exact List.mem_filterMap.mpr
          ⟨seg, hm, by simp [segment_delete_rule, hend]⟩
      · exact List.mem_filterMap.mpr
          ⟨seg, hm, by simp [segment_delete_rule, hend, hge]⟩
    · intro seg hm
      rw [hbeq] at hm
      obtain ⟨s0, hs0, hr⟩ := List.mem_filterMap.mp hm
      unfold segment_delete_rule at hr
      split_ifs at hr with h1 h2
      · exact ⟨s0, hs0, Or.inl ⟨h1, (Option.some.inj hr).symm⟩⟩
      · exact ⟨s0, hs0, Or.inr ⟨h2, (Option.some.inj hr).symm⟩⟩
    · intro seg hm
      rw [hbeq] at hm
      obtain ⟨s0, hs0, hr⟩ := List.mem_filterMap.mp hm
      unfold segment_delete_rule at hr
      split_ifs at hr with h1 h2
      · left; rw [← Option.some.inj hr]; exact h1
      · right
        have hseq : shiftSeg (deletedDur b) s0 = seg := Option.some.inj hr
        rw [← hseq]
        show deletedStart b ≤ (shiftSeg (deletedDur b) s0).start_time
        unfold shiftSeg deletedDur
        simp only
        linarith
    · rw [hbeq]
    · rw [hbeq]

/-- Witness for C1: on `bW` (valid selection `[2, 6)` at 4 Hz, i.e. seconds
`(0.5, 1.5)`), the deletion keeps 4 samples, keeps `segA`, shifts `segB` by
the deleted second, and resets both markers. -/
theorem delete_selection_spec_witness :
    (0 < bW.sample_rate ∧ bW.select_start ≤ select_end_actual bW ∧
     select_end_actual bW ≤ bW.samples.length) ∧
    (delete_selection bW).samples.length
      = bW.samples.length - (select_end_actual bW - bW.select_start) ∧
    segA ∈ (delete_selection bW).segments ∧
    shiftSeg (deletedDur bW) segB ∈ (delete_selection bW).segments ∧
    (delete_selection bW).select_start = 0 ∧
    (delete_selection bW).select_end = 0 := by
  have h := delete_selection_spec bW (by decide) (by decide) (by decide)
    (by norm_num [bW, segA, segB, segC]) (by norm_num [bW, segA, segB, segC])
  exact ⟨⟨by decide, by decide, by decide⟩, h.1,
    h.2.1 segA (by simp [bW])
      (by norm_num [bW, segA, deletedStart, select_end_actual]),
    h.2.2.1 segB (by simp [bW])
      (by norm_num [bW, segB, deletedEnd, select_end_actual]),
    h.2.2.2.2.2.1, h.2.2.2.2.2.2⟩

/-- Counterexample to C3: the selection-setting actions do not preserve the
selection invariant.  Reachable scenario on a 10-sample recording: play the
full buffer (cursor `play_position` advances to the buffer end and stays
there), press `[` while the cursor is at the end (`select_start := 10`,
invariant still holds), let playback finish (cursor resets to 0), then
press `]` (no cursor, so `select_end := int(len * 0.9) = 9`), leaving
`select_start = 10 > effectiveEnd = 9`. -/
theorem selection_invariant_cex :
    selectionInvariant ((playback_finished (action_set_select_start
        (playback_tick (start_playback demoState)))).audio) ∧
    ¬ selectionInvariant ((action_set_select_end (playback_finished
        (action_set_select_start (playback_tick (start_playback demoState))))).audio) := by
  norm_num [selectionInvariant, select_end_actual, start_playback,
    playback_tick, action_set_select_start, action_set_select_end,
    playback_finished, update_status, demoState, SAMPLE_RATE, samples_to_time]

/-- C3 amended: the buffer mutations (`append`, `delete_selection`,
`clear`, `reset_selection`) all preserve the selection invariant
`0 ≤ selectionStart ≤ effectiveEnd ≤ len(samples)`; the selection-setting
actions do not in general, since they store the playback cursor or the
10%/90% default without checking it against the other marker (see the
counterexample). -/
theorem buffer_mutations_preserve_selection_invariant (b : AudioBuffer)
    (data : List ℚ) (h : selectionInvariant b) :
    selectionInvariant (append b data) ∧
    selectionInvariant (delete_selection b) ∧
    selectionInvariant (clear b) ∧
    selectionInvariant (reset_selection b) := by
  refine ⟨?_, ?_, ?_, ?_⟩
  · obtain ⟨h1, h2⟩ := h
    unfold selectionInvariant select_end_actual append at *
    dsimp only at *
    simp only [List.length_append] at *
    split_ifs at * <;> constructor <;> omega
  · by_cases hE : b.samples.length = 0
    · have heq : delete_selection b = b := by simp [delete_selection, hE]
      rw [heq]; exact h
    · have hd : (delete_selection b).select_start = 0 ∧
          (delete_selection b).select_end = 0 := by
        unfold delete_selection; rw [if_neg hE]; exact ⟨rfl, rfl⟩
      unfold selectionInvariant select_end_actual
      rw [hd.1, hd.2]
      simp
  · unfold selectionInvariant select_end_actual clear
    dsimp only
    simp
  · obtain ⟨h1, h2⟩ := h
    unfold selectionInvariant select_end_actual reset_selection at *
    dsimp only at *
    split_ifs at * <;> constructor <;> omega

/-- Witness for the amended C3 at the concrete buffer `bW`. -/
theorem buffer_mutations_preserve_selection_invariant_witness :
    selectionInvariant bW ∧ selectionInvariant (append bW [0]) ∧
    selectionInvariant (delete_selection bW) ∧ selectionInvariant (clear bW) ∧
    selectionInvariant (reset_selection bW) := by
  have h := buffer_mutations_preserve_selection_invariant bW [0] (by decide)
  exact ⟨by decide, h.1, h.2.1, h.2.2.1, h.2.2.2⟩

/-- A one-second buffer that already carries a transcript segment. -/
def bufWithSegs : AudioBuffer :=
  { samples := List.replicate 16000 0, sample_rate := SAMPLE_RATE,
    select_start := 0, select_end := 0,
    segments := [{ text := "old", start_time := 0, end_time := 1 }],
    selected_segment := -1 }

/-- App state owning `bufWithSegs`. -/
def sWithSegs : AppState :=
  { audio := bufWithSegs, is_recording := false, is_playing := false,
    play_position := 0, cursor_row := 0,
    status := "Ready. Press Space to start recording.",
    transcribe_requests := [] }

/-- A nonempty engine result (text padded with whitespace to exercise the
`strip`). -/
def engineOut : List RawSegment := [{ text := " hi ", start := 0, end_ := 1 }]

/-- A two-second silent buffer. -/
def b32 : AudioBuffer :=
  { samples := List.replicate 32000 0, sample_rate := SAMPLE_RATE,
    select_start := 0, select_end := 0, segments := [],
    selected_segment := -1 }

/-- Counterexample to C4: `segments` is NOT replaced wholesale by every
completed transcription — an empty result (here: a 0.25 s range, below the
0.5 s guard, so the engine is not even consulted) leaves the previous
segments in place instead of replacing them with the empty result. -/
theorem transcribe_replace_cex :
    transcribe_audio bufWithSegs 0 4000 engineOut = [] ∧
    (on_transcribe_success sWithSegs
        (transcribe_audio bufWithSegs 0 4000 engineOut)).audio.segments
      ≠ transcribe_audio bufWithSegs 0 4000 engineOut := by
  have hl : (transcribe_slice bufWithSegs 0 4000).length = 4000 := by
    simp only [transcribe_slice, bufWithSegs]
    norm_num
  have h : transcribe_audio bufWithSegs 0 4000 engineOut = [] := by
    simp only [transcribe_audio]
    rw [if_pos (by rw [hl]; norm_num [SAMPLE_RATE])]
  refine ⟨h, ?_⟩
  rw [h]
  have he : (on_transcribe_success sWithSegs []).audio.segments
      = [{ text := "old", start_time := 0, end_time := 1 }] := rfl
  rw [he]
  simp

/-- C4 amended: a requested range shorter than 0.5 s yields `[]` regardless
of the engine (it is never submitted); a long-enough range yields exactly
the engine's nonempty-text segments with both times offset by
`start_sample / SAMPLE_RATE`; and on completion the handler replaces
`AudioBuffer.segments` wholesale with the result when it is non-empty, but
leaves the buffer untouched when the result is empty. -/
theorem transcribe_spec (b : AudioBuffer) (s : AppState)
    (start_sample end_sample : ℕ) (engine : List RawSegment) :
    ((transcribe_slice b start_sample end_sample).length < SAMPLE_RATE / 2 →
      ∀ engine2, transcribe_audio b start_sample end_sample engine2 = []) ∧
    (SAMPLE_RATE / 2 ≤ (transcribe_slice b start_sample end_sample).length →
      (∀ r ∈ engine, strip r.text ≠ "" →
        ({ text := strip r.text,
           start_time := r.start + (start_sample : ℚ) / (SAMPLE_RATE : ℚ),
           end_time := r.end_ + (start_sample : ℚ) / (SAMPLE_RATE : ℚ) }
          : TranscriptSegment)
          ∈ transcribe_audio b start_sample end_sample engine) ∧
      (∀ seg ∈ transcribe_audio b start_sample end_sample engine, ∃ r ∈ engine,
        strip r.text ≠ "" ∧
        seg = { text := strip r.text,
                start_time := r.start + (start_sample : ℚ) / (SAMPLE_RATE : ℚ),
                end_time := r.end_ + (start_sample : ℚ) / (SAMPLE_RATE : ℚ) })) ∧
    (∀ result : List TranscriptSegment, result ≠ [] →
      (on_transcribe_success s result).audio.segments = result) ∧
    (on_transcribe_success s []).audio = s.audio := by
  refine ⟨?_, ?_, ?_, ?_⟩
  · intro hlt engine2
    simp only [transcribe_audio]
    rw [if_pos hlt]
  · intro hge
    constructor
    · intro r hr hne
      simp only [transcribe_audio]
      rw [if_neg (not_lt.mpr hge)]
      exact List.mem_filterMap.mpr ⟨r, hr, by simp [raw_to_segment, hne]⟩
    · intro seg hm
      simp only [transcribe_audio] at hm
      rw [if_neg (not_lt.mpr hge)] at hm
      obtain ⟨r, hr, hout⟩ := List.mem_filterMap.mp hm
      simp only [raw_to_segment] at hout
      by_cases hne : strip r.text = ""
      · rw [if_pos hne] at hout; cases hout
      · rw [if_neg hne] at hout
        exact ⟨r, hr, hne, (Option.some.inj hout).symm⟩
  · intro result hne
    have hie : result.isEmpty = false := by
      cases result
      · exact absurd rfl hne
      · rfl
    simp [on_transcribe_success, hie, update_status]
  · rfl

/-- Witness for the amended C4: a 0.25 s request yields `[]` and leaves the
existing segment in place; a 1 s request starting at sample 16000 yields
the engine segment with times offset by exactly 1 s; a non-empty result
replaces the segments wholesale. -/
theorem transcribe_spec_witness :
    ((transcribe_slice bufWithSegs 0 4000).length < SAMPLE_RATE / 2 ∧
     transcribe_audio bufWithSegs 0 4000 engineOut = [] ∧
     (on_transcribe_success sWithSegs []).audio = sWithSegs.audio) ∧
    (SAMPLE_RATE / 2 ≤ (transcribe_slice b32 16000 32000).length ∧
     ({ text := strip (" hi "),
        start_time := (0 : ℚ) + (16000 : ℚ) / (SAMPLE_RATE : ℚ),
        end_time := (1 : ℚ) + (16000 : ℚ) / (SAMPLE_RATE : ℚ) }
       : TranscriptSegment) ∈ transcribe_audio b32 16000 32000 engineOut) ∧
    (on_transcribe_success sWithSegs
        [{ text := "hi", start_time := 1, end_time := 2 }]).audio.segments
      = [{ text := "hi", start_time := 1, end_time := 2 }] := by
  have hshort : (transcribe_slice bufWithSegs 0 4000).length < SAMPLE_RATE / 2 := by
    simp only [transcribe_slice, bufWithSegs]
    norm_num [SAMPLE_RATE]
  have hlong : SAMPLE_RATE / 2 ≤ (transcribe_slice b32 16000 32000).length := by
    simp only [transcribe_slice, b32]
    norm_num [SAMPLE_RATE]
  exact ⟨⟨hshort,
      (transcribe_spec bufWithSegs sWithSegs 0 4000 engineOut).1 hshort engineOut,
      (transcribe_spec bufWithSegs sWithSegs 0 4000 engineOut).2.2.2⟩,
    ⟨hlong,
      ((transcribe_spec b32 sWithSegs 16000 32000 engineOut).2.1 hlong).1
        { text := " hi ", start := 0, end_ := 1 } (by simp [engineOut]) (by decide)⟩,
    (transcribe_spec b32 sWithSegs 16000 32000 engineOut).2.2.1
      [{ text := "hi", start_time := 1, end_time := 2 }] (by simp)⟩

/-- C5: the handler of a completed live-transcription result never touches
`AudioBuffer.segments` (it only updates the status preview), and when
recording has already stopped — which is also the state after `clear()`
followed by a stop, the staleness condition the source keys on — the whole
state is returned unchanged, i.e. the stale result is discarded. -/
theorem live_result_never_merged (s : AppState) (texts : List String)
    (elapsedStr : String) :
    (on_live_success s texts elapsedStr).audio.segments = s.audio.segments ∧
    (s.is_recording = false → on_live_success s texts elapsedStr = s) := by
  constructor
  · unfold on_live_success update_status
    split_ifs <;> rfl
  · intro h; simp [on_live_success, h]

/-- Witness for C5: a live result `["hi"]` arriving when not recording is
discarded outright. -/
theorem live_result_never_merged_witness :
    emptyState.is_recording = false ∧
    on_live_success emptyState ["hi"] "00:01.0" = emptyState :=
  ⟨rfl, (live_result_never_merged emptyState ["hi"] "00:01.0").2 rfl⟩

/-- Counterexample to C9: deletion on an empty buffer is NOT reported as a
user-visible status message — `action_delete_selection` returns before any
status update, leaving the entire state (status line included) exactly as
it was, unlike the playback and transcription guards. -/
theorem empty_buffer_delete_silent_cex :
    action_delete_selection emptyState = emptyState ∧
    (action_delete_selection emptyState).status
      = "Ready. Press Space to start recording." :=
  ⟨rfl, rfl⟩

/-- C9 amended: on a zero-sample buffer, playback and transcription are
no-ops reported via a status message, and deletion is a silent no-op; none
of the three modifies samples, segments or selection, starts playback, or
submits a transcription request. -/
theorem empty_buffer_guards (s : AppState) (h : s.audio.samples = []) :
    ((start_playback s).audio = s.audio ∧
     (start_playback s).is_playing = s.is_playing ∧
     (start_playback s).play_position = s.play_position ∧
     (start_playback s).transcribe_requests = s.transcribe_requests ∧
     (start_playback s).status = "Nothing to play. Record something first.") ∧
    ((action_transcribe_all s).audio = s.audio ∧
     (action_transcribe_all s).is_recording = s.is_recording ∧
     (action_transcribe_all s).is_playing = s.is_playing ∧
     (action_transcribe_all s).transcribe_requests = s.transcribe_requests ∧
     (action_transcribe_all s).status
       = "Nothing to transcribe. Record something first.") ∧
    action_delete_selection s = s := by
  have hl : s.audio.samples.length = 0 := by rw [h]; rfl
  refine ⟨?_, ?_, ?_⟩
  · simp [start_playback, hl, update_status]
  · simp [action_transcribe_all, hl, update_status]
  · simp [action_delete_selection, hl]

/-- Witness for the amended C9 on a concrete empty-buffer state. -/
theorem empty_buffer_guards_witness :
    emptyState.audio.samples = [] ∧
    (start_playback emptyState).status = "Nothing to play. Record something first." ∧
    (start_playback emptyState).is_playing = false ∧
    (action_transcribe_all emptyState).status
      = "Nothing to transcribe. Record something first." ∧
    (action_transcribe_all emptyState).transcribe_requests = [] ∧
    action_delete_selection emptyState = emptyState := by
  have h := empty_buffer_guards emptyState rfl
  exact ⟨rfl, h.1.2.2.2.2, h.1.2.1, h.2.1.2.2.2.2, h.2.1.2.2.2.1, h.2.2⟩

end STTDemo
